import Mathlib

/-!
Verification of the StartOS service-lifecycle core (embassy-os repository)
against its natural-language specification.

The definitions below are a shallow embedding of the Rust sources:

* `src/core/startos/src/service/service_effect_handler.rs` (the effect bus)
* `src/core/startos/src/s9pk/merkle_archive/mod.rs` (the Merkle archive)
* `src/core/startos/src/util/io.rs` (`TimeoutStream`)
* `src/core/startos/src/context/rpc.rs` (`RpcContext::init` proxy selector)
* `src/core/startos/src/setup.rs` (`attach` / `execute`)

Machine integers are modelled as `Nat`; fallible code returns `Except Err`.
Where a type or function lives in a file that is not part of the provided
source tree (e.g. `errors.rs`, `status.rs`, the `emver` crate), its model is
taken from the specification and marked `Modelled from the spec:` in its
doc comment.
-/

namespace StartOS

/-- Modelled from the spec: the error-kind namespace of §7 (the defining
`errors.rs` is not in the source tree; the kinds are listed in the spec). -/
inductive ErrorKind where
  | invalidRequest
  | notFound
  | filesystem
  | network
  | parseS9pk
  | pack
  | deserialization
  | serialization
  | parseUrl
  | parseDbField
  | lxc
  | diskManagement
  | dependencyFailure
  | incoherent
  | unknown
deriving DecidableEq, Repr

/-- Modelled from the spec: a tagged error as surfaced by handlers
(`{kind, message}`). -/
structure Err where
  kind : ErrorKind
  msg : String
deriving DecidableEq, Repr

/-- The error produced by `EffectContext::deref` when the weak reference to
the `ServiceActorSeed` cannot be upgraded
(service_effect_handler.rs lines 59-68). -/
def destroyedErr : Err :=
  { kind := ErrorKind.invalidRequest, msg := ("Service has already been destroyed") }

/-- Modelled from the spec: arbitrary JSON values as stored in the patch
database (`imbl_value::Value`). Objects are association lists of fields. -/
inductive JSON where
  | null
  | bool (b : Bool)
  | num (n : Int)
  | str (s : String)
  | arr (elems : List JSON)
  | obj (fields : List (String × JSON))

/-- A JSON pointer, modelled as its list of reference tokens
(`patch_db::json_ptr::JsonPointer`). -/
abbrev Ptr := List String

abbrev PackageId := String
abbrev HealthCheckId := String
abbrev ActionId := String
abbrev InterfaceId := String
abbrev HostId := String
abbrev ImageId := String

/-- First-match lookup in an association list (the shallow model of
`BTreeMap`/`OrdMap` lookups). -/
def lookupA {α : Type} (k : String) : List (String × α) → Option α
  | [] => none
  | (k', v) :: rest => if k' = k then some v else lookupA k rest

/-- Replace the value at the first occurrence of `k` by `f` applied to it;
leaves the list unchanged when `k` is absent. -/
def updA {α : Type} (k : String) (f : α → α) : List (String × α) → List (String × α)
  | [] => []
  | (k', v) :: rest => if k' = k then (k', f v) :: rest else (k', v) :: updA k f rest

/-- `BTreeMap::insert`: replace the first binding of `k`, or append a new
binding when absent. -/
def insertA {α : Type} (k : String) (v : α) : List (String × α) → List (String × α)
  | [] => [(k, v)]
  | (k', v') :: rest => if k' = k then (k, v) :: rest else (k', v') :: insertA k v rest

/-- `BTreeMap::remove` (first binding). -/
def removeA {α : Type} (k : String) : List (String × α) → List (String × α)
  | [] => []
  | (k', v') :: rest => if k' = k then rest else (k', v') :: removeA k rest

/-- `upsert(key, default_fn)`: return the stored value or the default. -/
def upsertGet {α : Type} (k : String) (dflt : α) (l : List (String × α)) : α :=
  (lookupA k l).getD dflt

/-- `JsonPointer::get`: walk the pointer through objects and arrays
(RFC 6901 semantics of the `patch_db` crate). -/
def ptrGet : Ptr → JSON → Option JSON
  | [], v => some v
  | seg :: rest, JSON.obj fields =>
    match lookupA seg fields with
    | some v => ptrGet rest v
    | none => none
  | seg :: rest, JSON.arr elems =>
    match seg.toNat? with
    | some i =>
      match elems.get? i with
      | some v => ptrGet rest v
      | none => none
    | none => none
  | _ :: _, _ => none

/-- `JsonPointer::set` with intermediate creation (`path.set(&mut v, x, true)`):
overwrites the value at the pointer, creating objects along the way. -/
def ptrSet : Ptr → JSON → JSON → JSON
  | [], newVal, _ => newVal
  | seg :: rest, newVal, JSON.obj fields =>
    let child := (lookupA seg fields).getD (JSON.obj [])
    JSON.obj (insertA seg (ptrSet rest newVal child) fields)
  | seg :: rest, newVal, _ =>
    JSON.obj [(seg, ptrSet rest newVal (JSON.obj []))]

/-- `Value::is_null`. -/
def JSON.isNull : JSON → Bool
  | JSON.null => true
  | _ => false

/-! ## MerkleArchive (s9pk/merkle_archive/mod.rs)

`Hash` (a 32-byte BLAKE3 digest) is modelled as a `Nat` produced by an
injective structural encoding; entry sizes are `Nat`. -/

mutual
/-- `Entry` (mod.rs lines 161-165): a cached `(hash, size)` pair and the
contents. -/
inductive Entry : Type where
  | mk (hash : Option (Nat × Nat)) (contents : EntryContents)

/-- `EntryContents` (mod.rs lines 306-311). A file is modelled by its byte
list; a directory by its ordered name→entry list. -/
inductive EntryContents : Type where
  | missing
  | file (data : List Nat)
  | directory (d : DirList)

/-- The ordered `(name, entry)` list backing `DirectoryContents`
(directory_contents.rs is not in the source tree; the spec describes it as a
length-prefixed ordered list of `(name, entry)`). -/
inductive DirList : Type where
  | nil
  | cons (name : String) (e : Entry) (rest : DirList)
end

/-- `Entry::hash()` (mod.rs lines 176-178). -/
def Entry.hash : Entry → Option (Nat × Nat)
  | Entry.mk h _ => h

/-- `Entry::as_contents()` (mod.rs lines 179-181). -/
def Entry.contents : Entry → EntryContents
  | Entry.mk _ c => c

/-- `Entry::new` (mod.rs lines 167-172): a fresh entry has no cached hash. -/
def Entry.new (contents : EntryContents) : Entry :=
  Entry.mk none contents

/-- `Entry::as_file()` (mod.rs lines 182-187): the file contents when the
entry is a file. -/
def Entry.fileData : Entry → Option (List Nat)
  | Entry.mk _ (EntryContents.file data) => some data
  | _ => none

/-- Name lookup in a directory TOC. -/
def DirList.lookupName : DirList → String → Option Entry
  | DirList.nil, _ => none
  | DirList.cons n e rest, name =>
    if n = name then some e else DirList.lookupName rest name

/-- Modelled from the spec: `DirectoryContents::get_path`
(directory_contents.rs is not in the source tree) — walk the TOC by path
segment, descending through directories. -/
def DirList.getPath : DirList → List String → Option Entry
  | _, [] => none
  | d, [last] => d.lookupName last
  | d, seg :: rest =>
    match d.lookupName seg with
    | some (Entry.mk _ (EntryContents.directory d')) => DirList.getPath d' rest
    | _ => none

/-- Modelled from the spec: the BLAKE3 digest of a file body
(file_contents.rs is not in the source tree), represented by an injective
structural encoding of the bytes. -/
def fileHash (data : List Nat) : Nat :=
  data.foldr (fun b acc => Nat.pair b acc + 1) 0

/-- Modelled from the spec: an injective encoding standing for the BLAKE3
digest of one serialized TOC node (name, child `(hash, size)`, rest of the
TOC). -/
def tocNodeHash (name : String) (hs : Nat × Nat) (rest : Nat) : Nat :=
  Nat.pair (fileHash (name.data.map Char.toNat)) (Nat.pair hs.1 (Nat.pair hs.2 rest)) + 1

/-- The number of bytes of a varint (spec §4.1: file lengths are
varint-encoded). -/
def varintLen (n : Nat) : Nat :=
  if _h : n < 128 then 1 else 1 + varintLen (n / 128)
decreasing_by
  exact Nat.div_lt_self (Nat.lt_of_lt_of_le (by norm_num) (Nat.le_of_not_lt _h)) (by norm_num)

/-- Modelled from the spec: `FileContents::header_size()` — a constant
(position `u64` plus the varint-reserved length field). -/
def fileHeaderSizeC : Nat := 8 + 9

/-- `DirectoryContents::header_size()`: the position `u64` of the child TOC
(spec §4.1). -/
def dirHeaderSizeC : Nat := 8

/-- `EntryContents::header_size` (mod.rs lines 320-327): one type byte plus
the type-specific header. -/
def EntryContents.headerSize : EntryContents → Nat
  | EntryContents.missing => 1
  | EntryContents.file _ => 1 + fileHeaderSizeC
  | EntryContents.directory _ => 1 + dirHeaderSizeC

/-- `Entry::header_size` (mod.rs lines 213-217): 32 hash bytes + 8 size
bytes + the contents header. -/
def Entry.headerSize (e : Entry) : Nat :=
  32 + 8 + e.contents.headerSize

/-- Modelled from the spec: `DirectoryContents::toc_size()` — the
length-prefixed list of names and entry headers. -/
def DirList.tocSize : DirList → Nat
  | DirList.nil => varintLen 0
  | DirList.cons name e rest =>
    varintLen name.length + name.length + e.headerSize + DirList.tocSize rest

mutual
/-- The `(hash, size)` a serialized entry header carries
(`Entry::serialize_header`, mod.rs lines 282-297): the cached pair when
present, otherwise recomputed from the contents. -/
def Entry.headerHash : Entry → Except Err (Nat × Nat)
  | Entry.mk (some hs) _ => Except.ok hs
  | Entry.mk none c => EntryContents.computeHash c

/-- `EntryContents::hash` (mod.rs lines 359-368): `Missing` cannot be
hashed (`Pack` error); a file hashes its body; a directory's hash is its
TOC sighash paired with its TOC size. -/
def EntryContents.computeHash : EntryContents → Except Err (Nat × Nat)
  | EntryContents.missing =>
    Except.error { kind := ErrorKind.pack, msg := ("Cannot compute hash of missing file") }
  | EntryContents.file data => Except.ok (fileHash data, data.length)
  | EntryContents.directory d => do
    let s ← DirList.sighash d
    Except.ok (s, DirList.tocSize d)

/-- Modelled from the spec: `DirectoryContents::sighash()` — the BLAKE3
digest of the TOC serialized at max size; each child contributes its name
and the `(hash, size)` its serialized header carries. -/
def DirList.sighash : DirList → Except Err Nat
  | DirList.nil => Except.ok 0
  | DirList.cons name e rest => do
    let hs ← Entry.headerHash e
    let rs ← DirList.sighash rest
    Except.ok (tocNodeHash name hs rs)
end

/-- `Entry::as_contents_mut` (mod.rs lines 194-197) composed with whatever
mutation the caller performs through the returned reference: the cached
hash is unconditionally reset to `None`. -/
def Entry.asContentsMut (f : EntryContents → EntryContents) : Entry → Entry
  | Entry.mk _ c => Entry.mk none (f c)

/-- `Entry::to_missing` (mod.rs lines 263-273): a `Missing` stub carrying
the cached `(hash, size)` when present, else the recomputed pair. -/
def Entry.toMissing (e : Entry) : Except Err Entry :=
  match e.hash with
  | some hs => Except.ok (Entry.mk (some hs) EntryContents.missing)
  | none => do
    let hs ← EntryContents.computeHash e.contents
    Except.ok (Entry.mk (some hs) EntryContents.missing)

mutual
/-- `Entry::update_hash` (mod.rs lines 274-280): recurse into a directory,
then re-establish the cached hash from the contents. -/
def Entry.updateHash (onlyMissing : Bool) : Entry → Except Err Entry
  | Entry.mk _ (EntryContents.directory d) => do
    let d' ← DirList.updateHashes onlyMissing d
    let hs ← EntryContents.computeHash (EntryContents.directory d')
    Except.ok (Entry.mk (some hs) (EntryContents.directory d'))
  | Entry.mk _ c => do
    let hs ← EntryContents.computeHash c
    Except.ok (Entry.mk (some hs) c)

/-- Modelled from the spec: `DirectoryContents::update_hashes(only_missing)`
— bottom-up recomputation, skipping children that already carry a hash when
`only_missing` is set. -/
def DirList.updateHashes (onlyMissing : Bool) : DirList → Except Err DirList
  | DirList.nil => Except.ok DirList.nil
  | DirList.cons name e rest => do
    let e' ← if onlyMissing && e.hash.isSome then pure e else Entry.updateHash onlyMissing e
    let rest' ← DirList.updateHashes onlyMissing rest
    Except.ok (DirList.cons name e' rest')
end

/-- The entry operations the host performs between serializations, for
stating cache-coherence as a trace property. -/
inductive EntryOp where
  | contentsMut (f : EntryContents → EntryContents)
  | updateHashOp (onlyMissing : Bool)
  | toMissingOp

/-- Apply one operation. -/
def applyOp (e : Entry) : EntryOp → Except Err Entry
  | EntryOp.contentsMut f => Except.ok (e.asContentsMut f)
  | EntryOp.updateHashOp b => e.updateHash b
  | EntryOp.toMissingOp => e.toMissing

/-- Apply a sequence of operations left to right. -/
def applyOps (e : Entry) : List EntryOp → Except Err Entry
  | [] => Except.ok e
  | op :: rest => do
    let e' ← applyOp e op
    applyOps e' rest

/-- Operations that (re-)establish the cached hash: `update_hash` and
`to_missing` (together with `deserialize`, which builds a fresh entry). -/
def EntryOp.establishes : EntryOp → Bool
  | EntryOp.contentsMut _ => false
  | EntryOp.updateHashOp _ => true
  | EntryOp.toMissingOp => true

/-! ### Signed root header -/

/-- Modelled from the spec: an Ed25519 signature over
`SHA-512(sighash || max_size)` with a domain-separation context
(`ed25519_dalek::sign_prehashed`, an external crate), idealized as an
EUF-CMA-perfect scheme: a signature is the record of the signing key, the
prehashed message, and the context it was produced with. -/
structure Sig where
  key : Nat
  sighash : Nat
  maxSize : Nat
  ctx : String
deriving DecidableEq, Repr

/-- Modelled from the spec: `SigningKey::verifying_key()`, idealized as the
identity on key material. -/
def verifyingKey (sk : Nat) : Nat := sk

/-- `sign_prehashed(s, SHA-512(sighash || max_size), Some(context))`
(mod.rs lines 130-135). -/
def signPrehashed (sk : Nat) (sighash : Nat) (maxSize : Nat) (ctx : String) : Sig :=
  { key := sk, sighash := sighash, maxSize := maxSize, ctx := ctx }

/-- `verify_prehashed_strict(SHA-512(sighash || max_size), Some(context),
signature)` (mod.rs lines 98-102): in the idealized scheme a signature
verifies exactly against the key, message, and context it was made with. -/
def verifyPrehashed (pk : Nat) (sighash : Nat) (maxSize : Nat) (ctx : String)
    (sig : Sig) : Bool :=
  decide (verifyingKey sig.key = pk ∧ sig.sighash = sighash ∧
    sig.maxSize = maxSize ∧ sig.ctx = ctx)

/-- `Signer` (mod.rs lines 26-30). -/
inductive Signer where
  | signed (pubkey : Nat) (signature : Sig) (maxSize : Nat) (ctx : String)
  | signer (key : Nat) (ctx : String)

/-- `MerkleArchive` (mod.rs lines 32-36). -/
structure MerkleArchive where
  signer : Signer
  contents : DirList

/-- The signed root header: pubkey, signature, sighash, max_size
(spec §4.1; mod.rs lines 82-96 read exactly these fields). -/
structure RootHeader where
  pubkey : Nat
  signature : Sig
  sighash : Nat
  maxSize : Nat
deriving DecidableEq, Repr

/-- The root-header part of `MerkleArchive::serialize` (mod.rs lines
120-143): recompute the sighash from the contents; a `Signer::Signer`
re-signs `SHA-512(sighash || toc_size)` under its stored context, a
`Signer::Signed` re-emits the stored signature and max size. -/
def MerkleArchive.serializeRootHeader (a : MerkleArchive) : Except Err RootHeader := do
  let sighash ← DirList.sighash a.contents
  let size := DirList.tocSize a.contents
  match a.signer with
  | Signer.signed pubkey signature maxSize _ =>
    Except.ok { pubkey := pubkey, signature := signature, sighash := sighash, maxSize := maxSize }
  | Signer.signer s context =>
    let sig := signPrehashed s sighash size context
    Except.ok { pubkey := verifyingKey s, signature := sig, sighash := sighash, maxSize := size }

/-- The signature-verification step of `MerkleArchive::deserialize`
(mod.rs lines 75-110): verify the header signature against the supplied
context; on success the archive records `Signer::Signed` with that context,
on failure the whole deserialization errors (spec: fails with `ParseS9pk`). -/
def deserializeRootVerify (h : RootHeader) (context : String) : Except Err Signer :=
  if verifyPrehashed h.pubkey h.sighash h.maxSize context h.signature then
    Except.ok (Signer.signed h.pubkey h.signature h.maxSize context)
  else
    Except.error { kind := ErrorKind.parseS9pk, msg := ("signature verification failed") }

/-- An archive is signed under context `c`: a `Signer::Signer` carries `c`
directly; a `Signer::Signed` (as produced by `deserialize`) carries `c` and
a signature that was made under `c`. -/
def MerkleArchive.signedUnderB (a : MerkleArchive) (c : String) : Bool :=
  match a.signer with
  | Signer.signer _ ctx => ctx = c
  | Signer.signed _ sig _ ctx => ctx = c ∧ sig.ctx = c

/-! ## Effect bus data model (service_effect_handler.rs) -/

/-- Modelled from the spec: a health-check result, `result ∈ {Starting,
Loading, Passing, Failing, Disabled}` (§4.6; `status/health_check.rs` is not
in the source tree). -/
inductive HealthCheckResult where
  | starting
  | loading
  | passing
  | failing
  | disabled
deriving DecidableEq, Repr

/-- Modelled from the spec: the main status of a service, `main ∈ {Stopped,
Starting, Running{started_at, health}, Stopping, BackingUp{health},
Restarting, Restoring, Configuring}` (§3; `status/mod.rs` is not in the
source tree). The `Running` and `BackingUp` payloads match the patterns
`MainStatus::Running { ref mut health, .. }` and
`MainStatus::BackingUp { ref mut health, .. }` used in
service_effect_handler.rs. -/
inductive MainStatus where
  | stopped
  | starting
  | running (startedAt : Nat) (health : List (HealthCheckId × HealthCheckResult))
  | stopping
  | restarting
  | backingUp (health : List (HealthCheckId × HealthCheckResult))
  | restoring
  | configuring
deriving DecidableEq, Repr

/-- Modelled from the spec: `MainStatus::running()` as used by
`check_dependencies`; true exactly for the `Running` variant (matching the
`running` effect, service_effect_handler.rs line 869). -/
def MainStatus.isRunning : MainStatus → Bool
  | MainStatus.running _ _ => true
  | _ => false

/-- Modelled from the spec: `MainStatus::health()`; the health map is carried
by the `Running` and `BackingUp` variants only. -/
def MainStatus.healthMap : MainStatus → Option (List (HealthCheckId × HealthCheckResult))
  | MainStatus.running _ h => some h
  | MainStatus.backingUp h => some h
  | _ => none

/-- Modelled from the spec: a package version (the `emver` crate is an
external dependency); only its total order and range satisfaction matter to
the embedded code. -/
abbrev Version := Nat

/-- Modelled from the spec: an `emver::VersionRange`, reduced to an interval;
only decidable satisfaction is used by the embedded code. -/
structure VersionRange where
  lo : Nat
  hi : Nat
deriving DecidableEq, Repr

/-- `Version::satisfies(&VersionRange)`. -/
def Version.satisfies (v : Version) (r : VersionRange) : Bool :=
  decide (r.lo ≤ v ∧ v ≤ r.hi)

/-- `CurrentDependencyKind` (db/model/package.rs is not in the source tree;
variants from the spec and from the `set_dependencies` match arms). -/
inductive CurrentDependencyKind where
  | kindExists
  | kindRunning (healthChecks : List HealthCheckId)
deriving DecidableEq, Repr

/-- `CurrentDependencyInfo` as written by `set_dependencies`
(service_effect_handler.rs lines 1265-1275). -/
structure CurrentDependencyInfo where
  kind : CurrentDependencyKind
  registryUrl : String
  versionSpec : VersionRange
  icon : String
  title : String
  configSatisfied : Bool
deriving DecidableEq, Repr

/-- The slice of a `PackageEntry` read and written by the embedded effect
handlers: manifest version, status (main + configured), the two dependency
maps, exported actions and service interfaces. -/
structure PackageEntry where
  version : Version
  main : MainStatus
  configured : Bool
  currentDependencies : List (PackageId × CurrentDependencyInfo)
  currentDependents : List (PackageId × CurrentDependencyInfo)
  actions : List (ActionId × JSON)
  serviceInterfaces : List (InterfaceId × JSON)

/-- The patch database slice used by the effect handlers:
`public.package_data` and `private.package_stores`. -/
structure Db where
  packageData : List (PackageId × PackageEntry)
  packageStores : List (PackageId × JSON)

/-- The build-time architecture `*ARCH` (lib.rs). -/
def arch : String := "x86_64"

/-- The guest-declared `Status` enum of `setMainStatus`
(service_effect_handler.rs lines 924-946). -/
inductive GuestStatus where
  | running
  | stopped
deriving DecidableEq, Repr

/-- Modelled from the spec: the per-container `NetService`
(net/service.rs is not in the source tree), reduced to what the embedded
handlers call: `get_ip`, `get_ext_port`, and `bind` (whose allocation-table
mutation is internal to the net controller and abstracted to its fallible
result). -/
structure NetService where
  ip : Nat
  extPort : HostId → Nat → Except Err Nat
  bindFn : String → HostId → Nat → JSON → Except Err Unit

/-- The slice of `PersistentContainer` the embedded handlers touch: the
net service, the s9pk archive TOC (`create_overlayed_image` looks its
images up there), whether the LXC container is still alive
(`lxc_container.get().is_some()`), the overlay-guard map keyed by guid, and
the guid `new_guid()` will hand out next. -/
structure PersistentContainer where
  netService : NetService
  s9pk : DirList
  lxcAlive : Bool
  overlays : List (String × Unit)
  freshGuid : String

/-- A quiescent container used as the default seed payload. -/
def defaultContainer : PersistentContainer :=
  { netService :=
      { ip := 0,
        extPort := fun _ _ => Except.error { kind := ErrorKind.notFound, msg := ("port not found") },
        bindFn := fun _ _ _ _ => Except.ok () },
    s9pk := DirList.nil, lxcAlive := true, overlays := [], freshGuid := ("guid-0") }

/-- `ServiceActorSeed`, reduced to the fields the embedded handlers read:
the caller's package id (`context.id`) and its persistent container
(`context.persistent_container`). -/
structure Seed where
  id : PackageId
  container : PersistentContainer := defaultContainer

/-- The ambient host state an effect handler can reach besides the database:
the service map (`ctx.ctx.services`, as the set of package ids with a live
actor), the caller's `dependency_config` verdict per dependency, the result
of fetching a remote s9pk over the registry (`None` models a fetch error,
which the code logs and replaces by defaults), and the service-actor
methods the handlers invoke — `action`, `restart`, `stop`, and the seed's
`started`/`stopped` status marks (service/mod.rs is not in the source
tree; they are modelled as the world's function fields). -/
structure World where
  db : Db
  services : List PackageId
  depConfig : PackageId → Option JSON
  fetchRemote : PackageId → VersionRange → Option (String × String)
  actionFn : PackageId → ActionId → JSON → Except Err JSON := fun _ _ _ => Except.ok JSON.null
  restartFn : PackageId → Except Err Unit := fun _ => Except.ok ()
  stopFn : PackageId → Except Err Unit := fun _ => Except.ok ()
  startedFn : PackageId → Db → Db := fun _ db => db
  stoppedFn : PackageId → Db → Db := fun _ db => db

/-- `EffectContext::deref` (service_effect_handler.rs lines 59-68): upgrade
the weak reference to the seed, or fail with `InvalidRequest`. The weak
reference is modelled by an `Option Seed` (`none` = the seed was destroyed). -/
def derefE : Option Seed → Except Err Seed
  | some seed => Except.ok seed
  | none => Except.error destroyedErr

/-- `or_not_found`: `NotFound` error naming the missing resource. -/
def notFoundErr (what : String) : Err :=
  { kind := ErrorKind.notFound, msg := what ++ (" not found") }

/-- Lift an optional lookup into `Except` as `or_not_found` does. -/
def orNotFound {α : Type} (what : String) : Option α → Except Err α
  | some a => Except.ok a
  | none => Except.error (notFoundErr what)

/-! ## Effect handlers -/

/-- `get_store` (service_effect_handler.rs lines 696-714): resolve the target
package (defaulting to the caller), read its private store, walk the JSON
pointer. Note that the source performs no exposure or dependency check. -/
def getStore (ctx : Option Seed) (packageId : Option PackageId) (path : Ptr)
    (w : World) : Except Err JSON := do
  let context ← derefE ctx
  let pid := packageId.getD context.id
  let value ← orNotFound pid (lookupA pid w.db.packageStores)
  match ptrGet path value with
  | some v => Except.ok v
  | none => Except.error { kind := ErrorKind.notFound, msg := ("Did not find value at path") }

/-- `set_store` (lines 725-749): upsert the caller's store (defaulting a
null store to `{}`), set the value at the pointer, write back. -/
def setStore (ctx : Option Seed) (value : JSON) (path : Ptr)
    (w : World) : Except Err (World × Unit) := do
  let context ← derefE ctx
  let pid := context.id
  let stored := upsertGet pid (JSON.obj []) w.db.packageStores
  let stored := if stored.isNull then JSON.obj [] else stored
  let newVal := ptrSet path value stored
  Except.ok ({ w with db := { w.db with packageStores := insertA pid newVal w.db.packageStores } }, ())

/-- `expose_for_dependents` (lines 759-764): the handler body is `Ok(())` —
it records nothing and does not even dereference its context. -/
def exposeForDependents (_ctx : Option Seed) (_paths : List Ptr)
    (w : World) : Except Err (World × Unit) :=
  Except.ok (w, ())

/-- The `set_health` insertion into the current main status
(lines 991-1000): `Running` and `BackingUp` gain the `(id, result)` pair in
their health map; every other status is left untouched. -/
def MainStatus.insertHealth (id : HealthCheckId) (result : HealthCheckResult) :
    MainStatus → MainStatus
  | MainStatus.running startedAt health => MainStatus.running startedAt (insertA id result health)
  | MainStatus.backingUp health => MainStatus.backingUp (insertA id result health)
  | other => other

/-- `set_health` (lines 974-1004). -/
def setHealth (ctx : Option Seed) (id : HealthCheckId) (result : HealthCheckResult)
    (w : World) : Except Err (World × Unit) := do
  let context ← derefE ctx
  let pid := context.id
  match lookupA pid w.db.packageData with
  | none => Except.error (notFoundErr pid)
  | some _ =>
    let pd := updA pid (fun e => { e with main := e.main.insertHealth id result }) w.db.packageData
    Except.ok ({ w with db := { w.db with packageData := pd } }, ())

/-- `exists` (lines 782-791). -/
def existsEffect (ctx : Option Seed) (packageId : PackageId) (w : World) :
    Except Err Bool := do
  let _ ← derefE ctx
  Except.ok (lookupA packageId w.db.packageData).isSome

/-- `get_configured` (lines 827-840). -/
def getConfigured (ctx : Option Seed) (w : World) : Except Err Bool := do
  let context ← derefE ctx
  let entry ← orNotFound context.id (lookupA context.id w.db.packageData)
  Except.ok entry.configured

/-- `set_configured` (lines 905-922). -/
def setConfigured (ctx : Option Seed) (configured : Bool) (w : World) :
    Except Err (World × Unit) := do
  let context ← derefE ctx
  let pid := context.id
  match lookupA pid w.db.packageData with
  | none => Except.error (notFoundErr pid)
  | some _ =>
    let pd := updA pid (fun e => { e with configured := configured }) w.db.packageData
    Except.ok ({ w with db := { w.db with packageData := pd } }, ())

/-- `stopped` (lines 842-855). -/
def stoppedEffect (ctx : Option Seed) (packageId : Option PackageId) (w : World) :
    Except Err Bool := do
  let context ← derefE ctx
  let pid := packageId.getD context.id
  let entry ← orNotFound pid (lookupA pid w.db.packageData)
  Except.ok (entry.main = MainStatus.stopped)

/-- `running` (lines 856-870). -/
def runningEffect (ctx : Option Seed) (packageId : PackageId) (w : World) :
    Except Err Bool := do
  let _ ← derefE ctx
  let entry ← orNotFound packageId (lookupA packageId w.db.packageData)
  Except.ok entry.main.isRunning

/-- `export_action` (lines 426-448). -/
def exportAction (ctx : Option Seed) (id : ActionId) (metadata : JSON) (w : World) :
    Except Err (World × Unit) := do
  let context ← derefE ctx
  let pid := context.id
  match lookupA pid w.db.packageData with
  | none => Except.error (notFoundErr pid)
  | some _ =>
    let pd := updA pid (fun e => { e with actions := insertA id metadata e.actions }) w.db.packageData
    Except.ok ({ w with db := { w.db with packageData := pd } }, ())

/-- `remove_action` (lines 449-468). -/
def removeAction (ctx : Option Seed) (id : ActionId) (w : World) :
    Except Err (World × Unit) := do
  let context ← derefE ctx
  let pid := context.id
  match lookupA pid w.db.packageData with
  | none => Except.error (notFoundErr pid)
  | some _ =>
    let pd := updA pid (fun e => { e with actions := removeA id e.actions }) w.db.packageData
    Except.ok ({ w with db := { w.db with packageData := pd } }, ())

/-- `list_service_interfaces` (lines 403-421); the source reads the caller's
entry regardless of the `package_id` parameter. -/
def listServiceInterfaces (ctx : Option Seed) (w : World) :
    Except Err (List (InterfaceId × JSON)) := do
  let context ← derefE ctx
  let entry ← orNotFound context.id (lookupA context.id w.db.packageData)
  Except.ok entry.serviceInterfaces

/-- `DependencyRequirement` (lines 1112-1136). -/
inductive DependencyRequirement where
  | reqRunning (id : PackageId) (healthChecks : List HealthCheckId)
      (versionSpec : VersionRange) (registryUrl : String)
  | reqExists (id : PackageId) (versionSpec : VersionRange) (registryUrl : String)
deriving DecidableEq, Repr

/-- The fallback icon used when fetching the remote s9pk fails
(`include_bytes` of package-icon.png, line 1252), abstracted to its data URL. -/
def defaultIconUrl : String := "data:image/png;base64,package-icon"

/-- The `CurrentDependencyInfo` `set_dependencies` builds for one declared
requirement (lines 1205-1275): kind/url/spec from the requirement; icon and
title from the fetched remote s9pk, with fallbacks on fetch error; and
`config_satisfied` from the caller's `dependency_config` when the dependency
has a live service, `true` otherwise. -/
def buildDepInfo (w : World) (req : DependencyRequirement) :
    PackageId × CurrentDependencyInfo :=
  let (depId, kind, registryUrl, versionSpec) :=
    match req with
    | DependencyRequirement.reqExists id versionSpec registryUrl =>
      (id, CurrentDependencyKind.kindExists, registryUrl, versionSpec)
    | DependencyRequirement.reqRunning id healthChecks versionSpec registryUrl =>
      (id, CurrentDependencyKind.kindRunning healthChecks, registryUrl, versionSpec)
  let (icon, title) :=
    match w.fetchRemote depId versionSpec with
    | some it => it
    | none => (defaultIconUrl, depId)
  let configSatisfied :=
    if w.services.contains depId then (w.depConfig depId).isNone else true
  (depId,
    { kind := kind, registryUrl := registryUrl, versionSpec := versionSpec,
      icon := icon, title := title, configSatisfied := configSatisfied })

/-- `set_dependencies` (lines 1196-1288): require a live service for the
caller, build the new dependency map, then — in a single mutate — replace
the caller's `current_dependencies`. Nothing else in the database is
written; in particular no `current_dependents` entry is touched. -/
def setDependencies (ctx : Option Seed) (dependencies : List DependencyRequirement)
    (w : World) : Except Err (World × Unit) := do
  let context ← derefE ctx
  let id := context.id
  if w.services.contains id then
    let deps := dependencies.foldl (fun acc req =>
      let (depId, info) := buildDepInfo w req
      insertA depId info acc) []
    match lookupA id w.db.packageData with
    | none => Except.error (notFoundErr id)
    | some _ =>
      let pd := updA id (fun e => { e with currentDependencies := deps }) w.db.packageData
      Except.ok ({ w with db := { w.db with packageData := pd } }, ())
  else
    Except.error (notFoundErr id)

/-- `get_dependencies` (lines 1290-1328). -/
def getDependencies (ctx : Option Seed) (w : World) :
    Except Err (List DependencyRequirement) := do
  let context ← derefE ctx
  let entry ← orNotFound context.id (lookupA context.id w.db.packageData)
  Except.ok (entry.currentDependencies.map (fun (depId, info) =>
    match info.kind with
    | CurrentDependencyKind.kindExists =>
      DependencyRequirement.reqExists depId info.versionSpec info.registryUrl
    | CurrentDependencyKind.kindRunning healthChecks =>
      DependencyRequirement.reqRunning depId healthChecks info.versionSpec info.registryUrl))

/-- `CheckDependenciesResult` (lines 1337-1347). -/
structure CheckDependenciesResult where
  packageId : PackageId
  isInstalled : Bool
  isRunning : Bool
  healthChecks : List HealthCheckResult
  version : Option Version
deriving DecidableEq, Repr

/-- The per-dependency body of the `check_dependencies` loop
(lines 1372-1421). -/
def checkOneDependency (w : World) (packageId : PackageId)
    (info : CurrentDependencyInfo) : CheckDependenciesResult :=
  match lookupA packageId w.db.packageData with
  | none =>
    { packageId := packageId, isInstalled := false, isRunning := false,
      healthChecks := [], version := none }
  | some package =>
    let installedVersion := package.version
    let version := some installedVersion
    if ¬ installedVersion.satisfies info.versionSpec then
      { packageId := packageId, isInstalled := false, isRunning := false,
        healthChecks := [], version := version }
    else
      { packageId := packageId, isInstalled := true,
        isRunning := package.main.isRunning,
        healthChecks := (package.main.healthMap.getD []).map Prod.snd,
        version := version }

/-- `check_dependencies` (lines 1349-1423): read the caller's
`current_dependencies`; keep only requested ids that are keys of that map
(`filter_map`); report each kept dependency. -/
def checkDependencies (ctx : Option Seed) (packageIds : Option (List PackageId))
    (w : World) : Except Err (List CheckDependenciesResult) := do
  let context ← derefE ctx
  let entry ← orNotFound context.id (lookupA context.id w.db.packageData)
  let currentDependencies := entry.currentDependencies
  let kept := (packageIds.getD (currentDependencies.map Prod.fst)).filterMap
    (fun x => (lookupA x currentDependencies).map (fun info => (x, info)))
  Except.ok (kept.map (fun (pid, info) => checkOneDependency w pid info))

/-- `get_container_ip` (lines 325-329). -/
def getContainerIp (ctx : Option Seed) : Except Err Nat := do
  let context ← derefE ctx
  Except.ok context.container.netService.ip

/-- `get_service_port_forward` (lines 330-339): `internal_port` is
truncated `as u16` before the deref; the lookup is delegated to the net
service; the `package_id` parameter is ignored by the source body. -/
def getServicePortForward (ctx : Option Seed) (_packageId : Option PackageId)
    (internalPort : Nat) (hostId : HostId) : Except Err Nat := do
  let internalPort16 := internalPort % 65536
  let context ← derefE ctx
  context.container.netService.extPort hostId internalPort16

/-- `export_service_interface` (lines 343-396): after the deref, the
handler assembles a `ServiceInterfaceWithHostInfo` from its parameters (a
pure reshaping, modelled as the already-assembled `payload`) and inserts
it under `id` in the caller's `service_interfaces` within one mutate. -/
def exportServiceInterface (ctx : Option Seed) (id : InterfaceId) (payload : JSON)
    (w : World) : Except Err (World × Unit) := do
  let context ← derefE ctx
  let pid := context.id
  match lookupA pid w.db.packageData with
  | none => Except.error (notFoundErr pid)
  | some _ =>
    let pd := updA pid
      (fun e => { e with serviceInterfaces := insertA id payload e.serviceInterfaces })
      w.db.packageData
    Except.ok ({ w with db := { w.db with packageData := pd } }, ())

/-- `bind` (lines 517-529): delegate to the net service under its lock. -/
def bindEffect (ctx : Option Seed) (kind : String) (id : HostId)
    (internalPort : Nat) (options : JSON) : Except Err Unit := do
  let c ← derefE ctx
  c.container.netService.bindFn kind id internalPort options

/-- `execute_action` (lines 804-823): dispatch to the target package's
service (defaulting to the caller); a missing service is an `Unknown`
error; the action call itself is the service actor's `action` method. -/
def executeAction (ctx : Option Seed) (serviceId : Option PackageId)
    (actionId : ActionId) (input : JSON) (w : World) : Except Err JSON := do
  let context ← derefE ctx
  let packageId := serviceId.getD context.id
  if w.services.contains packageId then
    w.actionFn packageId actionId input
  else
    Except.error { kind := ErrorKind.unknown, msg := ("Could not find package ") ++ packageId }

/-- `restart` (lines 872-883): restart the caller's service; a missing
service is an `Unknown` error; returns `Value::Null`. -/
def restartEffect (ctx : Option Seed) (w : World) : Except Err JSON := do
  let context ← derefE ctx
  if w.services.contains context.id then do
    let _ ← w.restartFn context.id
    Except.ok JSON.null
  else
    Except.error { kind := ErrorKind.unknown, msg := ("Could not find package ") ++ context.id }

/-- `shutdown` (lines 885-896): stop the caller's service; same shape as
`restart`. -/
def shutdownEffect (ctx : Option Seed) (w : World) : Except Err JSON := do
  let context ← derefE ctx
  if w.services.contains context.id then do
    let _ ← w.stopFn context.id
    Except.ok JSON.null
  else
    Except.error { kind := ErrorKind.unknown, msg := ("Could not find package ") ++ context.id }

/-- `set_main_status` (lines 948-963): `Running` invokes the seed's
`started()`, `Stopped` its `stopped()`; returns `Value::Null`. -/
def setMainStatus (ctx : Option Seed) (status : GuestStatus) (w : World) :
    Except Err (World × JSON) := do
  let context ← derefE ctx
  match status with
  | GuestStatus.running => Except.ok ({ w with db := w.startedFn context.id w.db }, JSON.null)
  | GuestStatus.stopped => Except.ok ({ w with db := w.stoppedFn context.id w.db }, JSON.null)

/-- `create_overlayed_image` (lines 1042-1102): look up
`images/<arch>/<image_id>.squashfs` in the caller's archive; a missing
file is `NotFound`; a destroyed LXC container is `Incoherent`; otherwise a
fresh guid names the overlay, the guard is recorded, and the
container-side mountpoint is returned. The chown and loop-mount external
commands are modelled as succeeding. -/
def createOverlayedImage (ctx : Option Seed) (imageId : ImageId) :
    Except Err (PersistentContainer × (String × String)) := do
  let c ← derefE ctx
  let pc := c.container
  let path := [("images"), arch, imageId ++ (".squashfs")]
  match (DirList.getPath pc.s9pk path).bind Entry.fileData with
  | some _ =>
    let guid := pc.freshGuid
    if pc.lxcAlive then
      let mountpoint := ("/media/startos/overlays/") ++ guid
      Except.ok ({ pc with overlays := insertA guid () pc.overlays }, (mountpoint, guid))
    else
      Except.error { kind := ErrorKind.incoherent, msg := ("PersistentContainer has been destroyed") }
  | none =>
    Except.error { kind := ErrorKind.notFound, msg := ("image ") ++ imageId ++ (" not found in s9pk") }

/-- `destroy_overlayed_image` (lines 1015-1031): remove the overlay guard
for `guid`; a missing guid only logs a warning, and the call succeeds
either way. -/
def destroyOverlayedImage (ctx : Option Seed) (guid : String) :
    Except Err (PersistentContainer × Unit) := do
  let c ← derefE ctx
  Except.ok ({ c.container with overlays := removeA guid c.container.overlays }, ())

/-! ## TimeoutStream (util/io.rs lines 610-682) -/

/-- `std::task::Poll`. -/
inductive Poll (α : Type) where
  | ready (a : α)
  | pending
deriving DecidableEq, Repr

/-- Modelled from the spec: `std::io::Error`, reduced to its kind (only
`TimedOut` is compared against). -/
inductive IoErrorKind where
  | timedOut
  | other (tag : String)
deriving DecidableEq, Repr

/-- The `TimedOut` error built in `poll_read`
(`std::io::Error::new(TimedOut, "timed out")`). -/
def timedOutErr : IoErrorKind × String := (IoErrorKind.timedOut, ("timed out"))

/-- The `TimeoutStream` wrapper state: the configured idle window and the
absolute deadline of the embedded `Sleep` (created at `now + timeout` and
reset to `Instant::now() + timeout` on ready I/O). Time is an abstract
`Nat` instant; the inner stream's poll outcome is supplied as an argument. -/
structure TimeoutStream where
  timeout : Nat
  deadline : Nat
deriving DecidableEq, Repr

/-- `TimeoutStream::new(stream, timeout)`: the sleep is initialized to a full
window from now. -/
def TimeoutStream.new (timeout : Nat) (now : Nat) : TimeoutStream :=
  { timeout := timeout, deadline := now + timeout }

/-- `poll_read` (io.rs lines 628-645): if the sleep has elapsed, fail with
`TimedOut`; otherwise delegate to the inner stream and, when it returns
`Ready`, reset the sleep to a full window. -/
def TimeoutStream.pollRead (st : TimeoutStream) (now : Nat)
    (inner : Poll (Except (IoErrorKind × String) Unit)) :
    Poll (Except (IoErrorKind × String) Unit) × TimeoutStream :=
  if st.deadline ≤ now then
    (Poll.ready (Except.error timedOutErr), st)
  else
    match inner with
    | Poll.ready r => (Poll.ready r, { st with deadline := now + st.timeout })
    | Poll.pending => (Poll.pending, st)

/-- `poll_write` (io.rs lines 648-659): delegate to the inner stream; when it
returns `Ready`, reset the sleep. The sleep is never consulted. -/
def TimeoutStream.pollWrite (st : TimeoutStream) (now : Nat)
    (inner : Poll (Except (IoErrorKind × String) Nat)) :
    Poll (Except (IoErrorKind × String) Nat) × TimeoutStream :=
  match inner with
  | Poll.ready r => (Poll.ready r, { st with deadline := now + st.timeout })
  | Poll.pending => (Poll.pending, st)

/-- `poll_flush` (io.rs lines 660-670): same shape as `poll_write`. -/
def TimeoutStream.pollFlush (st : TimeoutStream) (now : Nat)
    (inner : Poll (Except (IoErrorKind × String) Unit)) :
    Poll (Except (IoErrorKind × String) Unit) × TimeoutStream :=
  match inner with
  | Poll.ready r => (Poll.ready r, { st with deadline := now + st.timeout })
  | Poll.pending => (Poll.pending, st)

/-- `poll_shutdown` (io.rs lines 671-681): same shape as `poll_write`. -/
def TimeoutStream.pollShutdown (st : TimeoutStream) (now : Nat)
    (inner : Poll (Except (IoErrorKind × String) Unit)) :
    Poll (Except (IoErrorKind × String) Unit) × TimeoutStream :=
  match inner with
  | Poll.ready r => (Poll.ready r, { st with deadline := now + st.timeout })
  | Poll.pending => (Poll.pending, st)

/-! ## RpcContext proxy selector (context/rpc.rs lines 74-184) -/

/-- The default Tor SOCKS address used when the config gives none
(rpc.rs lines 76-79): `127.0.0.1:9050`. -/
def defaultTorSocks : String := "127.0.0.1:9050"

/-- `tor_proxy` resolution in `RpcContext::init`
(`config.tor_socks.unwrap_or(127.0.0.1:9050)`). -/
def torProxyAddr (configTorSocks : Option String) : String :=
  configTorSocks.getD defaultTorSocks

/-- `tor_proxy_url` (rpc.rs line 106): `format!("socks5h://{tor_proxy}")`. -/
def torProxyUrl (torProxy : String) : String :=
  "socks5h://" ++ torProxy

/-- `str::ends_with`, modelled executably on the character lists. -/
def strEndsWith (s p : String) : Bool :=
  s.data.reverse.take p.data.length == p.data.reverse

/-- The closure passed to `Proxy::custom` (rpc.rs lines 176-182): return the
Tor proxy URL when the URL's host ends with ".onion"
(`url.host_str().map_or(false, |h| h.ends_with(".onion"))`), `None`
otherwise. The URL is represented by its optional host string. -/
def proxySelector (torProxy : String) (host : Option String) : Option String :=
  if (host.map (fun h => strEndsWith h (".onion"))).getD false then
    some (torProxyUrl torProxy)
  else
    none

/-- The scheme of a URL string: the characters before the first ':'. -/
def schemeOf (s : String) : String :=
  { data := s.data.takeWhile (fun c => c ≠ ':') }

/-! ## Setup (setup.rs) -/

/-- `SetupStatus` (setup.rs lines 188-194). -/
structure SetupStatus where
  bytesTransferred : Nat
  totalBytes : Option Nat
  complete : Bool
deriving DecidableEq, Repr

/-- `SetupResult` (context/setup.rs is not in the source tree; its fields are
visible where `attach`/`execute` build it: tor_address, lan_address,
root_ca). -/
structure SetupResult where
  torAddress : String
  lanAddress : String
  rootCa : String
deriving DecidableEq, Repr

/-- The shared setup state of `SetupContext`: `setup_status` (an in-progress
record or a stored error) and `setup_result`. -/
structure SetupState where
  setupStatus : Option (Except Err SetupStatus)
  setupResult : Option (String × SetupResult)

/-- The in-progress record both handlers store before spawning
(`bytes_transferred: 0, total_bytes: None, complete: false`). -/
def inProgressStatus : SetupStatus :=
  { bytesTransferred := 0, totalBytes := none, complete := false }

/-- The `InvalidRequest` error returned when a setup is already in progress
(setup.rs lines 116-121 and 297-303). -/
def setupInProgressErr : Err :=
  { kind := ErrorKind.invalidRequest, msg := ("Setup already in progress") }

/-- The synchronous part of `setup.attach` (setup.rs lines 111-186): under
the `setup_status` write lock, fail with `InvalidRequest` when a setup is
already in progress; otherwise store the in-progress record, spawn the
background import (not modelled — it runs after `attach` returns), and
return success. Password decryption happens inside the spawned task. The
returned state is paired with the result so that "unchanged on error" is
expressible. -/
def attach (st : SetupState) : Except Err Unit × SetupState :=
  if st.setupStatus.isSome then
    (Except.error setupInProgressErr, st)
  else
    (Except.ok (), { st with setupStatus := some (Except.ok inProgressStatus) })

/-- The parameters of `setup.execute` that the synchronous part inspects:
each `EncryptedWire` password is modelled by its decryption result
(`none` = `decrypt` failed). -/
structure ExecuteParams where
  startOsPassword : Option String
  recoveryPassword : Option (Option String)

/-- The error for an undecryptable `startOsPassword`
(setup.rs lines 276-284): kind `Unknown`. -/
def badStartPasswordErr : Err :=
  { kind := ErrorKind.unknown, msg := ("Couldn't decode embassy-password") }

/-- The error for an undecryptable `recoveryPassword`
(setup.rs lines 285-296): kind `Unknown`. -/
def badRecoveryPasswordErr : Err :=
  { kind := ErrorKind.unknown, msg := ("Couldn't decode recovery-password") }

/-- The synchronous part of `setup.execute` (setup.rs lines 267-350): decrypt
both passwords (failing with `Unknown` on either), then — exactly as
`attach` — check and set `setup_status` before spawning `execute_inner`. -/
def execute (params : ExecuteParams) (st : SetupState) : Except Err Unit × SetupState :=
  match params.startOsPassword with
  | none => (Except.error badStartPasswordErr, st)
  | some _ =>
    match params.recoveryPassword with
    | some none => (Except.error badRecoveryPasswordErr, st)
    | _ =>
      if st.setupStatus.isSome then
        (Except.error setupInProgressErr, st)
      else
        (Except.ok (), { st with setupStatus := some (Except.ok inProgressStatus) })

/-! ## Concrete fixtures used by witnesses and counterexamples -/

/-- A package entry with the given main status and dependency map and no
other data. -/
def mkEntry (main : MainStatus)
    (deps : List (PackageId × CurrentDependencyInfo) := [])
    (dependents : List (PackageId × CurrentDependencyInfo) := [])
    (version : Version := 1) : PackageEntry :=
  { version := version, main := main, configured := true,
    currentDependencies := deps, currentDependents := dependents,
    actions := [], serviceInterfaces := [] }

/-- A world from a database slice, with the given live services, no pending
dependency-config issues, and failing remote fetches. -/
def mkWorld (packageData : List (PackageId × PackageEntry))
    (packageStores : List (PackageId × JSON) := [])
    (services : List PackageId := []) : World :=
  { db := { packageData := packageData, packageStores := packageStores },
    services := services, depConfig := fun _ => none,
    fetchRemote := fun _ _ => none }

/-- The world-level mutation `set_health` commits when the caller's package
exists (the body of the `db.mutate` closure, service_effect_handler.rs
lines 984-1001). -/
def setHealthMutation (w : World) (pid : PackageId) (hid : HealthCheckId)
    (r : HealthCheckResult) : World :=
  let pd := updA pid (fun e' => { e' with main := e'.main.insertHealth hid r }) w.db.packageData
  { w with db := { w.db with packageData := pd } }

/-- The state-setting step both setup handlers perform when no setup is in
progress. -/
def startSetup (st : SetupState) : SetupState :=
  { st with setupStatus := some (Except.ok inProgressStatus) }

/-- A dependency declaration on package `a` requiring versions 2 to 3. -/
def depInfoA : CurrentDependencyInfo :=
  { kind := CurrentDependencyKind.kindExists, registryUrl := (""),
    versionSpec := { lo := 2, hi := 3 }, icon := (""), title := ("a"),
    configSatisfied := true }

/-- The caller entry of the `checkDependencies` witness: `c` depends on `a`. -/
def entryC9 : PackageEntry := mkEntry MainStatus.stopped [(("a"), depInfoA)]

/-- The world of the `checkDependencies` witness: `c` depends on `a`
(versions 2-3), but `a` is installed at version 1. -/
def worldC9 : World :=
  mkWorld [(("c"), entryC9), (("a"), mkEntry MainStatus.stopped [] [] 1)]

/-- A world where package `x` has stored `{"k": 42}` in its private store
and guest `y` has declared no dependencies and `x` has exposed nothing. -/
def worldC1 : World :=
  mkWorld [(("x"), mkEntry MainStatus.stopped), (("y"), mkEntry MainStatus.stopped)]
    [(("x"), JSON.obj [(("k"), JSON.num 42)])]

/-- An `Exists` requirement on package `a` accepting versions 0-10. -/
def reqA : DependencyRequirement :=
  DependencyRequirement.reqExists ("a") { lo := 0, hi := 10 } ("")

/-- A world holding packages `a` and `b`, both with empty dependency maps,
where `b` has a live service. -/
def worldC2 : World :=
  mkWorld [(("a"), mkEntry MainStatus.stopped), (("b"), mkEntry MainStatus.stopped)]
    [] [("b")]

/-- An empty archive freshly signed by key 7 under context "startos"
(spec §8 scenario 1). -/
def archiveC4 : MerkleArchive :=
  { signer := Signer.signer 7 ("startos"), contents := DirList.nil }

/-- The root header `serialize` emits for `archiveC4`. -/
def hdrC4 : RootHeader :=
  { pubkey := 7,
    signature := { key := 7, sighash := 0, maxSize := varintLen 0, ctx := ("startos") },
    sighash := 0, maxSize := varintLen 0 }

/-- The dependency-mirror violation check at packages `a`/`b`: `a` is a key
of `b`'s `current_dependencies` while `b` is not a key of `a`'s
`current_dependents`. -/
def mirrorViolatedAB (db : Db) : Bool :=
  (match lookupA ("b") db.packageData with
   | some eB => (lookupA ("a") eB.currentDependencies).isSome
   | none => false) &&
  (match lookupA ("a") db.packageData with
   | some eA => (lookupA ("b") eA.currentDependents).isNone
   | none => false)

/-! # Theorems -/

/-! ## Helper lemmas -/

theorem ok_bind {ε α β : Type} (a : α) (f : α → Except ε β) :
    (Except.ok a >>= f) = f a := rfl

theorem error_bind {ε α β : Type} (e : ε) (f : α → Except ε β) :
    ((Except.error e : Except ε α) >>= f) = Except.error e := rfl

theorem updA_eq_of_lookup {α : Type} (k : String) (f : α → α) (l : List (String × α))
    (v : α) (hl : lookupA k l = some v) (hf : f v = v) : updA k f l = l := by
  induction l with
  | nil => simp [updA]
  | cons hd tl ih =>
    obtain ⟨k', v'⟩ := hd
    by_cases hk : k' = k
    · subst hk
      simp [lookupA] at hl
      simp [updA, hl, hf]
    · simp [lookupA, hk] at hl
      simp [updA, hk, ih hl]

theorem lookupA_updA_self {α : Type} (k : String) (f : α → α) (l : List (String × α))
    (v : α) (hl : lookupA k l = some v) : lookupA k (updA k f l) = some (f v) := by
  induction l with
  | nil => simp [lookupA] at hl
  | cons hd tl ih =>
    obtain ⟨k', v'⟩ := hd
    by_cases hk : k' = k
    · subst hk
      simp [lookupA] at hl
      simp [updA, lookupA, hl]
    · simp [lookupA, hk] at hl
      simp [updA, lookupA, hk, ih hl]

/-! ## C3: destroyed seed -/

/-- Claim C3: for every implemented EffectBus command that dereferences its
`EffectContext` — all twenty-four of them: getStore, setStore, setHealth,
exists, getConfigured, setConfigured, stopped, running, exportAction,
removeAction, listServiceInterfaces, setDependencies, getDependencies,
checkDependencies, getContainerIp, getServicePortForward,
exportServiceInterface, bind, executeAction, restart, shutdown,
setMainStatus, createOverlayedImage, destroyOverlayedImage — when the weak
reference to the caller's `ServiceActorSeed` cannot be upgraded (modelled
by a `none` context) the command fails with
`InvalidRequest ("Service has already been destroyed")`; the error carries
no updated state, so no state change is performed. -/
theorem effect_commands_fail_on_destroyed_seed
    (w : World) (pid : Option PackageId) (pkg : PackageId) (path : Ptr) (value : JSON)
    (hid : HealthCheckId) (result : HealthCheckResult) (b : Bool) (aid : ActionId)
    (meta : JSON) (reqs : List DependencyRequirement) (ids : Option (List PackageId))
    (iport : Nat) (hostId : HostId) (iid : InterfaceId) (payload : JSON)
    (kind : String) (opts : JSON) (input : JSON) (gstatus : GuestStatus)
    (imgId : ImageId) (guid : String) :
    getStore none pid path w = Except.error destroyedErr ∧
    setStore none value path w = Except.error destroyedErr ∧
    setHealth none hid result w = Except.error destroyedErr ∧
    existsEffect none pkg w = Except.error destroyedErr ∧
    getConfigured none w = Except.error destroyedErr ∧
    setConfigured none b w = Except.error destroyedErr ∧
    stoppedEffect none pid w = Except.error destroyedErr ∧
    runningEffect none pkg w = Except.error destroyedErr ∧
    exportAction none aid meta w = Except.error destroyedErr ∧
    removeAction none aid w = Except.error destroyedErr ∧
    listServiceInterfaces none w = Except.error destroyedErr ∧
    setDependencies none reqs w = Except.error destroyedErr ∧
    getDependencies none w = Except.error destroyedErr ∧
    checkDependencies none ids w = Except.error destroyedErr ∧
    getContainerIp none = Except.error destroyedErr ∧
    getServicePortForward none pid iport hostId = Except.error destroyedErr ∧
    exportServiceInterface none iid payload w = Except.error destroyedErr ∧
    bindEffect none kind hostId iport opts = Except.error destroyedErr ∧
    executeAction none pid aid input w = Except.error destroyedErr ∧
    restartEffect none w = Except.error destroyedErr ∧
    shutdownEffect none w = Except.error destroyedErr ∧
    setMainStatus none gstatus w = Except.error destroyedErr ∧
    createOverlayedImage none imgId = Except.error destroyedErr ∧
    destroyOverlayedImage none guid = Except.error destroyedErr := by
  refine ⟨rfl, rfl, rfl, rfl, rfl, rfl, rfl, rfl, rfl, rfl, rfl, rfl, rfl, rfl,
    rfl, rfl, rfl, rfl, rfl, rfl, rfl, rfl, rfl, rfl⟩

/-! ## C5: setHealth -/

/-- Claim C5: for a `setHealth({id, result})` call by a guest whose package
exists in the database, the call returns success and the database mutation
inserts `(id, result)` into the main status's health map exactly when the
main status is `Running` or `BackingUp`; for every other main status the
database is left unchanged. -/
theorem setHealth_inserts_only_running_backingUp
    (w : World) (ctx : Seed) (hid : HealthCheckId) (r : HealthCheckResult)
    (e : PackageEntry) (he : lookupA ctx.id w.db.packageData = some e) :
    (setHealth (some ctx) hid r w = Except.ok (setHealthMutation w ctx.id hid r, ())) ∧
    (∀ s hl, e.main = MainStatus.running s hl →
      e.main.insertHealth hid r = MainStatus.running s (insertA hid r hl)) ∧
    (∀ hl, e.main = MainStatus.backingUp hl →
      e.main.insertHealth hid r = MainStatus.backingUp (insertA hid r hl)) ∧
    (e.main.healthMap = none →
      setHealth (some ctx) hid r w = Except.ok (w, ())) := by
  refine ⟨?_, ?_, ?_, ?_⟩
  · simp [setHealth, derefE, ok_bind, he, setHealthMutation]
  · intro s hl hm
    simp [hm, MainStatus.insertHealth]
  · intro hl hm
    simp [hm, MainStatus.insertHealth]
  · intro hnone
    have hfix : (fun e' : PackageEntry =>
        { e' with main := e'.main.insertHealth hid r }) e = e := by
      have : e.main.insertHealth hid r = e.main := by
        cases hm : e.main <;> simp [hm, MainStatus.healthMap] at hnone ⊢ <;>
          simp [MainStatus.insertHealth]
      simp [this]
    have hupd := updA_eq_of_lookup ctx.id
      (fun e' : PackageEntry => { e' with main := e'.main.insertHealth hid r })
      w.db.packageData e he hfix
    simp [setHealth, derefE, ok_bind, he, hupd]

/-- Witness for C5 at a concrete input: a running package gains the health
pair. -/
theorem setHealth_witness :
    setHealth (some { id := ("p") }) ("main") HealthCheckResult.passing
        (mkWorld [(("p"), mkEntry (MainStatus.running 0 []))]) =
      Except.ok (mkWorld
        [(("p"), mkEntry (MainStatus.running 0 [(("main"), HealthCheckResult.passing)]))], ()) := by
  have h := setHealth_inserts_only_running_backingUp
    (mkWorld [(("p"), mkEntry (MainStatus.running 0 []))])
    { id := ("p") } ("main") HealthCheckResult.passing
    (mkEntry (MainStatus.running 0 [])) (by rfl)
  exact h.1.trans (by rfl)

/-! ## C9: checkDependencies -/

theorem checkOneDependency_packageId (w : World) (x : PackageId)
    (info : CurrentDependencyInfo) : (checkOneDependency w x info).packageId = x := by
  unfold checkOneDependency
  cases lookupA x w.db.packageData with
  | none => rfl
  | some pkg =>
    by_cases hs : pkg.version.satisfies info.versionSpec <;> simp [hs]

/-- Claim C9: `checkDependencies({package_ids})` reports only package ids
that are keys of the caller's `current_dependencies` map — a requested id
that is not a current dependency is silently omitted — and when a
dependency package exists but its installed version does not satisfy the
declared `version_spec`, its entry reports `is_installed = false` while
`version` still carries the installed version. -/
theorem checkDependencies_scope_and_version
    (w : World) (ctx : Seed) (entry : PackageEntry) (ids : List PackageId)
    (results : List CheckDependenciesResult)
    (hentry : lookupA ctx.id w.db.packageData = some entry)
    (hrun : checkDependencies (some ctx) (some ids) w = Except.ok results) :
    (∀ r ∈ results, ∃ info, lookupA r.packageId entry.currentDependencies = some info) ∧
    (∀ x ∈ ids, lookupA x entry.currentDependencies = none →
      ∀ r ∈ results, r.packageId ≠ x) ∧
    (∀ x info, x ∈ ids → lookupA x entry.currentDependencies = some info →
      checkOneDependency w x info ∈ results) ∧
    (∀ x info pkg, lookupA x entry.currentDependencies = some info →
      lookupA x w.db.packageData = some pkg →
      pkg.version.satisfies info.versionSpec = false →
      checkOneDependency w x info =
        { packageId := x, isInstalled := false, isRunning := false,
          healthChecks := [], version := some pkg.version }) := by
  simp only [checkDependencies, derefE, ok_bind, orNotFound, hentry,
    Option.getD_some, Except.ok.injEq] at hrun
  have hmemres : ∀ r, r ∈ results ↔
      ∃ x info, x ∈ ids ∧ lookupA x entry.currentDependencies = some info ∧
        r = checkOneDependency w x info := by
    intro r
    rw [← hrun]
    simp only [List.mem_map, List.mem_filterMap, Option.map_eq_some']
    constructor
    · rintro ⟨p, ⟨x', hx', info', hinfo', heq⟩, rfl⟩
      subst heq
      exact ⟨x', info', hx', hinfo', rfl⟩
    · rintro ⟨x, info, hx, hinfo, rfl⟩
      exact ⟨⟨x, info⟩, ⟨x, hx, info, hinfo, rfl⟩, rfl⟩
  refine ⟨?_, ?_, ?_, ?_⟩
  · intro r hr
    obtain ⟨x, info, _, hinfo, rfl⟩ := (hmemres r).1 hr
    rw [checkOneDependency_packageId]
    exact ⟨info, hinfo⟩
  · intro x _ hnone r hr hpid
    obtain ⟨x', info', _, hinfo', rfl⟩ := (hmemres r).1 hr
    rw [checkOneDependency_packageId] at hpid
    rw [hpid] at hinfo'
    rw [hnone] at hinfo'
    exact Option.noConfusion hinfo'
  · intro x info hx hinfo
    exact (hmemres (checkOneDependency w x info)).2 ⟨x, info, hx, hinfo, rfl⟩
  · intro x info pkg _ hpkg hsat
    simp [checkOneDependency, hpkg, hsat]

/-- Witness for C9 at a concrete input: the caller depends on `a`
(requiring versions 2-3) which is installed at version 1, and requests
`["a", "z"]` where `z` is not a dependency; the single result reports `a`
as not installed with version 1, and nothing is reported for `z`. -/
theorem checkDependencies_witness :
    (checkOneDependency worldC9 ("a") depInfoA =
      { packageId := ("a"), isInstalled := false, isRunning := false,
        healthChecks := [], version := some 1 }) ∧
    (∀ r ∈ [checkOneDependency worldC9 ("a") depInfoA], r.packageId ≠ ("z")) := by
  have h := checkDependencies_scope_and_version worldC9 { id := ("c") } entryC9
    [("a"), ("z")] [checkOneDependency worldC9 ("a") depInfoA] (by rfl) (by rfl)
  refine ⟨?_, ?_⟩
  · exact h.2.2.2 ("a") depInfoA (mkEntry MainStatus.stopped [] [] 1) (by rfl) (by rfl) (by rfl)
  · exact h.2.1 ("z") (by simp) (by rfl)

/-! ## C7: onion proxy selector -/

theorem schemeOf_torProxyUrl (t : String) : schemeOf (torProxyUrl t) = "socks5h" := by
  obtain ⟨l⟩ := t
  rfl

/-- Claim C7: the `RpcContext` HTTP client's proxy selector returns the Tor
SOCKS proxy exactly for URLs whose host ends with ".onion"; for every other
host, and for URLs without a host, it returns `None`; and any returned
proxy URL has scheme exactly `socks5h`. -/
theorem proxySelector_onion_routing (t : String) (host : Option String) :
    (proxySelector t host = some (torProxyUrl t) ↔
      ∃ h, host = some h ∧ strEndsWith h (".onion") = true) ∧
    (∀ p, proxySelector t host = some p →
      p = torProxyUrl t ∧ schemeOf p = "socks5h") ∧
    (host = none → proxySelector t host = none) := by
  refine ⟨?_, ?_, ?_⟩
  · cases host with
    | none => simp [proxySelector]
    | some h =>
      by_cases honion : strEndsWith h (".onion") = true
      · simp [proxySelector, honion]
      · simp [proxySelector, honion]
  · intro p hp
    unfold proxySelector at hp
    split at hp
    · cases hp
      exact ⟨rfl, schemeOf_torProxyUrl t⟩
    · exact Option.noConfusion hp
  · intro hnone
    subst hnone
    simp [proxySelector]

/-- Witness for C7's conditional parts at concrete inputs: an onion host is
proxied through `socks5h`, a clearnet host is not. -/
theorem proxySelector_witness :
    (proxySelector defaultTorSocks (some ("exampleabcdef.onion")) =
      some (torProxyUrl defaultTorSocks)) ∧
    (schemeOf (torProxyUrl defaultTorSocks) = "socks5h") ∧
    (proxySelector defaultTorSocks (some ("registry.start9.com")) = none) := by
  have h1 := (proxySelector_onion_routing defaultTorSocks
    (some ("exampleabcdef.onion"))).1.2 ⟨("exampleabcdef.onion"), rfl, by rfl⟩
  have h2 := (proxySelector_onion_routing defaultTorSocks
    (some ("exampleabcdef.onion"))).2.1 (torProxyUrl defaultTorSocks) h1
  exact ⟨h1, h2.2, by rfl⟩

/-! ## C1: getStore cross-package access -/

/-- Claim C1 (code evaluation at the failing input): a guest `y` that never
declared `x` as a dependency reads `x`'s private store at `/k` through
`getStore(package_id="x")` and receives the value `42` instead of
`NotFound`; `exposeForDependents` is a no-op for every input, so no
exposure state exists that could gate the read. -/
theorem getStore_cross_package_unchecked :
    (getStore (some { id := ("y") }) (some ("x")) [("k")] worldC1 =
      Except.ok (JSON.num 42)) ∧
    (∀ (ctx : Option Seed) (paths : List Ptr) (w : World),
      exposeForDependents ctx paths w = Except.ok (w, ())) := by
  exact ⟨rfl, fun _ _ _ => rfl⟩

/-! ## C2: dependency mirror invariant -/

theorem lookupA_updA {α : Type} (p q : String) (f : α → α) (l : List (String × α)) :
    lookupA p (updA q f l) = if p = q then (lookupA p l).map f else lookupA p l := by
  induction l with
  | nil => by_cases hpq : p = q <;> simp [updA, lookupA, hpq]
  | cons hd tl ih =>
    obtain ⟨k', v⟩ := hd
    by_cases hq : k' = q
    · by_cases hp : k' = p
      · have hpq : p = q := by rw [← hp, hq]
        simp [updA, lookupA, hq, hp, hpq]
      · have hpq : ¬ p = q := fun h => hp (by rw [hq, ← h])
        have hqp : ¬ q = p := fun h => hp (hq.trans h)
        simp [updA, lookupA, hq, hp, hpq, hqp]
    · by_cases hp : k' = p
      · have hpq : ¬ p = q := fun h => hq (by rw [hp, h])
        simp [updA, lookupA, hq, hp, hpq]
      · simp [updA, lookupA, hq, hp, ih]

/-- `set_dependencies` never writes any `current_dependents` map: every
package's `current_dependents` reads the same after a successful call. -/
theorem setDependencies_preserves_dependents
    (ctx : Seed) (reqs : List DependencyRequirement) (w w' : World)
    (hrun : setDependencies (some ctx) reqs w = Except.ok (w', ())) (pid : PackageId) :
    (lookupA pid w'.db.packageData).map PackageEntry.currentDependents =
      (lookupA pid w.db.packageData).map PackageEntry.currentDependents := by
  simp only [setDependencies, derefE, ok_bind] at hrun
  by_cases hs : w.services.contains ctx.id
  · rw [if_pos hs] at hrun
    cases hlook : lookupA ctx.id w.db.packageData with
    | none =>
      rw [hlook] at hrun
      exact absurd hrun (by simp)
    | some e0 =>
      rw [hlook] at hrun
      simp only [Except.ok.injEq, Prod.mk.injEq, and_true] at hrun
      rw [← hrun]
      simp only [lookupA_updA]
      by_cases hpid : pid = ctx.id
      · rw [if_pos hpid, Option.map_map]
        rfl
      · rw [if_neg hpid]
  · rw [if_neg hs] at hrun
    exact absurd hrun (by simp)

/-- Claim C2 (code evaluation at the failing input): after guest `b` (with a
live service) calls `setDependencies([{kind: Exists, id: "a"}])` on a
database holding `a` and `b` with empty dependency maps, `a` is a key of
`b`'s `current_dependencies` but `b` is not a key of `a`'s
`current_dependents` — the bidirectional index is not maintained. -/
theorem setDependencies_breaks_mirror :
    (setDependencies (some { id := ("b") }) [reqA] worldC2).toOption.map
      (fun p => mirrorViolatedAB p.1.db) = some true := by
  rfl

/-! ## C6: TimeoutStream -/

/-- Counterexample to claim C6 as stated: on a stream whose idle window has
long elapsed (deadline 0, polled at instant 100), `poll_write` does not fail
with `TimedOut` — it simply forwards the inner stream's successful write of
4 bytes (and resets the timer). Only `poll_read` consults the timer. -/
theorem pollWrite_after_deadline_succeeds :
    (TimeoutStream.pollWrite { timeout := 5, deadline := 0 } 100
        (Poll.ready (Except.ok 4)) =
      (Poll.ready (Except.ok 4), { timeout := 5, deadline := 105 })) ∧
    (Poll.ready (Except.ok 4) ≠
      (Poll.ready (Except.error timedOutErr) :
        Poll (Except (IoErrorKind × String) Nat))) := by
  exact ⟨rfl, by simp⟩

/-- Claim C6 (amended): once the idle window elapses, `poll_read` fails with
`TimedOut`; `poll_write`, `poll_flush`, and `poll_shutdown` never consult
the idle timer and simply delegate to the inner stream; and every
read (completing before the deadline), write, flush, or shutdown that
returns `Ready` resets the idle timer to a full window. -/
theorem timeoutStream_behaviour :
    (∀ (st : TimeoutStream) (now : Nat) inner, st.deadline ≤ now →
      st.pollRead now inner = (Poll.ready (Except.error timedOutErr), st)) ∧
    (∀ (st : TimeoutStream) (now : Nat) r, now < st.deadline →
      st.pollRead now (Poll.ready r) =
        (Poll.ready r, { st with deadline := now + st.timeout })) ∧
    (∀ (st : TimeoutStream) (now : Nat), now < st.deadline →
      st.pollRead now Poll.pending = (Poll.pending, st)) ∧
    (∀ (st : TimeoutStream) (now : Nat) r,
      st.pollWrite now (Poll.ready r) =
        (Poll.ready r, { st with deadline := now + st.timeout })) ∧
    (∀ (st : TimeoutStream) (now : Nat) r,
      st.pollFlush now (Poll.ready r) =
        (Poll.ready r, { st with deadline := now + st.timeout })) ∧
    (∀ (st : TimeoutStream) (now : Nat) r,
      st.pollShutdown now (Poll.ready r) =
        (Poll.ready r, { st with deadline := now + st.timeout })) ∧
    (∀ (st : TimeoutStream) (now : Nat),
      st.pollWrite now Poll.pending = (Poll.pending, st)) := by
  refine ⟨?_, ?_, ?_, ?_, ?_, ?_, ?_⟩
  · intro st now inner h
    simp [TimeoutStream.pollRead, h]
  · intro st now r h
    simp [TimeoutStream.pollRead, Nat.not_le_of_lt h]
  · intro st now h
    simp [TimeoutStream.pollRead, Nat.not_le_of_lt h]
  · intro st now r
    rfl
  · intro st now r
    rfl
  · intro st now r
    rfl
  · intro st now
    rfl

/-- Witness for C6 (amended) at concrete inputs: a read past the deadline
times out; a ready read before the deadline resets the window. -/
theorem timeoutStream_witness :
    (TimeoutStream.pollRead { timeout := 5, deadline := 3 } 10 Poll.pending =
      (Poll.ready (Except.error timedOutErr), { timeout := 5, deadline := 3 })) ∧
    (TimeoutStream.pollRead { timeout := 5, deadline := 30 } 10
        (Poll.ready (Except.ok ())) =
      (Poll.ready (Except.ok ()), { timeout := 5, deadline := 15 })) := by
  exact ⟨timeoutStream_behaviour.1 { timeout := 5, deadline := 3 } 10 Poll.pending
      (by decide),
    timeoutStream_behaviour.2.1 { timeout := 5, deadline := 30 } 10
      (Except.ok ()) (by decide)⟩

/-! ## C8: setup gating -/

/-- Counterexample to claim C8 as stated: with a setup already in progress,
`setup.execute` called with a password that fails to decrypt returns an
`Unknown` error ("Couldn't decode embassy-password"), not the
`InvalidRequest ("Setup already in progress")` the claim requires —
`execute` decrypts its passwords before checking the in-progress flag. -/
theorem execute_bad_password_before_gate :
    (execute { startOsPassword := none, recoveryPassword := none }
        { setupStatus := some (Except.ok inProgressStatus), setupResult := none } =
      (Except.error badStartPasswordErr,
        { setupStatus := some (Except.ok inProgressStatus), setupResult := none })) ∧
    badStartPasswordErr ≠ setupInProgressErr := by
  exact ⟨rfl, by decide⟩

/-- Claim C8 (amended): when a setup is in progress, `attach` always fails
with `InvalidRequest ("Setup already in progress")`, and `execute` does so
provided its supplied passwords decrypt; a password that fails to decrypt
makes `execute` fail with `Unknown` instead (the decryption happens before
the in-progress check); in every one of these failure cases the setup
status and result are unchanged. When no setup is in progress (and
passwords decrypt), each handler stores the in-progress record
(`bytes_transferred 0, complete false`) before spawning the background work
and returns success. -/
theorem setup_gating :
    (∀ st : SetupState, st.setupStatus.isSome = true →
      attach st = (Except.error setupInProgressErr, st)) ∧
    (∀ st : SetupState, st.setupStatus = none →
      attach st = (Except.ok (), startSetup st)) ∧
    (∀ (st : SetupState) (pw : String), st.setupStatus.isSome = true →
      execute { startOsPassword := some pw, recoveryPassword := none } st =
        (Except.error setupInProgressErr, st)) ∧
    (∀ (st : SetupState) (pw r : String), st.setupStatus.isSome = true →
      execute { startOsPassword := some pw, recoveryPassword := some (some r) } st =
        (Except.error setupInProgressErr, st)) ∧
    (∀ (st : SetupState) (pw : String), st.setupStatus = none →
      execute { startOsPassword := some pw, recoveryPassword := none } st =
        (Except.ok (), startSetup st)) ∧
    (∀ (st : SetupState) (pw r : String), st.setupStatus = none →
      execute { startOsPassword := some pw, recoveryPassword := some (some r) } st =
        (Except.ok (), startSetup st)) ∧
    (∀ (st : SetupState) (rp : Option (Option String)),
      execute { startOsPassword := none, recoveryPassword := rp } st =
        (Except.error badStartPasswordErr, st)) ∧
    (∀ (st : SetupState) (pw : String),
      execute { startOsPassword := some pw, recoveryPassword := some none } st =
        (Except.error badRecoveryPasswordErr, st)) := by
  refine ⟨?_, ?_, ?_, ?_, ?_, ?_, ?_, ?_⟩
  · intro st h
    simp [attach, h]
  · intro st h
    simp [attach, h, startSetup]
  · intro st pw h
    simp [execute, h]
  · intro st pw r h
    simp [execute, h]
  · intro st pw h
    simp [execute, h, startSetup]
  · intro st pw r h
    simp [execute, h, startSetup]
  · intro st rp
    rfl
  · intro st pw
    rfl

/-- Witness for C8 (amended) at concrete inputs. -/
theorem setup_gating_witness :
    (attach { setupStatus := some (Except.ok inProgressStatus), setupResult := none } =
      (Except.error setupInProgressErr,
        { setupStatus := some (Except.ok inProgressStatus), setupResult := none })) ∧
    (execute { startOsPassword := some ("pw"), recoveryPassword := none }
        { setupStatus := none, setupResult := none } =
      (Except.ok (), startSetup { setupStatus := none, setupResult := none })) := by
  exact ⟨setup_gating.1
      { setupStatus := some (Except.ok inProgressStatus), setupResult := none } (by rfl),
    setup_gating.2.2.2.2.1 { setupStatus := none, setupResult := none } ("pw") (by rfl)⟩

/-! ## C4: signature domain separation -/

/-- Claim C4: for every archive signed (or re-signed on serialize) under
context `c`, verifying the serialized root header with any context
`c' ≠ c` fails — the signature covers `SHA-512(sighash || max_size)` with
the context as Ed25519 domain separation — while a freshly-signed archive
verifies under `c` itself. -/
theorem deserialize_rejects_wrong_context
    (a : MerkleArchive) (c : String) (hdr : RootHeader) (c' : String)
    (hctx : a.signedUnderB c = true)
    (hser : a.serializeRootHeader = Except.ok hdr)
    (hne : c' ≠ c) :
    deserializeRootVerify hdr c' =
      Except.error { kind := ErrorKind.parseS9pk, msg := ("signature verification failed") } ∧
    (∀ sk, a.signer = Signer.signer sk c →
      deserializeRootVerify hdr c =
        Except.ok (Signer.signed hdr.pubkey hdr.signature hdr.maxSize c)) := by
  have hcc' : ¬ (c = c') := fun h => hne h.symm
  simp only [MerkleArchive.serializeRootHeader] at hser
  cases hsig : DirList.sighash a.contents with
  | error err =>
    rw [hsig] at hser
    exact absurd hser (by simp [error_bind])
  | ok sighash =>
    rw [hsig, ok_bind] at hser
    cases ha : a.signer with
    | signed pk sig ms ctxS =>
      rw [ha] at hser
      simp only [Except.ok.injEq] at hser
      simp only [MerkleArchive.signedUnderB, ha, decide_eq_true_eq] at hctx
      obtain ⟨-, hsigctx⟩ := hctx
      constructor
      · rw [← hser]
        simp [deserializeRootVerify, verifyPrehashed, hsigctx, hcc']
      · intro sk hsk
        exact absurd hsk (by simp)
    | signer sk ctxS =>
      rw [ha] at hser
      simp only [Except.ok.injEq] at hser
      simp only [MerkleArchive.signedUnderB, ha, decide_eq_true_eq] at hctx
      subst hctx
      constructor
      · rw [← hser]
        simp [deserializeRootVerify, verifyPrehashed, signPrehashed, hcc']
      · intro sk' hsk
        rw [← hser]
        simp [deserializeRootVerify, verifyPrehashed, signPrehashed]

/-- Witness for C4 at a concrete input (spec §8 scenario 1): an empty
archive signed under "startos" serializes to `hdrC4`; verification under
"other" is rejected, verification under "startos" succeeds. -/
theorem deserialize_context_witness :
    (deserializeRootVerify hdrC4 ("other") =
      Except.error { kind := ErrorKind.parseS9pk, msg := ("signature verification failed") }) ∧
    (deserializeRootVerify hdrC4 ("startos") =
      Except.ok (Signer.signed hdrC4.pubkey hdrC4.signature hdrC4.maxSize ("startos"))) := by
  have h := deserialize_rejects_wrong_context archiveC4 ("startos") hdrC4 ("other")
    (by rfl) (by rfl) (by decide)
  exact ⟨h.1, h.2 7 (by rfl)⟩

/-! ## C10: entry hash-cache coherence -/

theorem applyOps_append (e : Entry) (l1 l2 : List EntryOp) :
    applyOps e (l1 ++ l2) =
      (applyOps e l1) >>= (fun e1 => applyOps e1 l2) := by
  induction l1 generalizing e with
  | nil => rfl
  | cons op rest ih =>
    show (applyOp e op >>= fun e1 => applyOps e1 (rest ++ l2)) =
      ((applyOp e op >>= fun e1 => applyOps e1 rest) >>= fun e1 => applyOps e1 l2)
    cases applyOp e op with
    | error err => rfl
    | ok e1 =>
      rw [ok_bind, ok_bind]
      exact ih e1

theorem hash_none_after_nonestablishing (l : List EntryOp) :
    ∀ e e', e.hash = none → (∀ op ∈ l, op.establishes = false) →
      applyOps e l = Except.ok e' → e'.hash = none := by
  induction l with
  | nil =>
    intro e e' hnone _ hrun
    cases hrun
    exact hnone
  | cons op rest ih =>
    intro e e' hnone hall hrun
    cases op with
    | contentsMut f =>
      rw [show applyOps e (EntryOp.contentsMut f :: rest) =
          applyOps (e.asContentsMut f) rest from rfl] at hrun
      refine ih (e.asContentsMut f) e' ?_ (fun o ho => hall o (List.mem_cons_of_mem _ ho)) hrun
      cases e
      rfl
    | updateHashOp b =>
      exact absurd (hall (EntryOp.updateHashOp b) (List.mem_cons_self _ _)) (by simp [EntryOp.establishes])
    | toMissingOp =>
      exact absurd (hall EntryOp.toMissingOp (List.mem_cons_self _ _)) (by simp [EntryOp.establishes])

/-- Claim C10: `as_contents_mut` always resets the cached `(hash, size)` to
`None`; consequently, after any successful operation sequence whose last
mutable contents access is not followed by a hash-establishing operation
(`update_hash` / `to_missing`), `Entry::hash()` is `None`; and on a
just-mutated entry both `serialize_header` and `to_missing` recompute the
hash from the current contents rather than emitting a stale cached pair. -/
theorem entry_hash_cache_coherence :
    (∀ (f : EntryContents → EntryContents) (e : Entry), (e.asContentsMut f).hash = none) ∧
    (∀ (e e' : Entry) (l1 l2 : List EntryOp) (f : EntryContents → EntryContents),
      applyOps e (l1 ++ EntryOp.contentsMut f :: l2) = Except.ok e' →
      (∀ op ∈ l2, op.establishes = false) →
      e'.hash = none) ∧
    (∀ (f : EntryContents → EntryContents) (e : Entry),
      Entry.headerHash (e.asContentsMut f) = EntryContents.computeHash (f e.contents)) ∧
    (∀ (f : EntryContents → EntryContents) (e : Entry),
      Entry.toMissing (e.asContentsMut f) =
        (EntryContents.computeHash (f e.contents)).map
          (fun hs => Entry.mk (some hs) EntryContents.missing)) := by
  refine ⟨?_, ?_, ?_, ?_⟩
  · intro f e
    cases e
    rfl
  · intro e e' l1 l2 f hrun hall
    rw [applyOps_append] at hrun
    cases h1 : applyOps e l1 with
    | error err =>
      rw [h1] at hrun
      exact absurd hrun (by simp [error_bind])
    | ok e1 =>
      rw [h1, ok_bind] at hrun
      rw [show applyOps e1 (EntryOp.contentsMut f :: l2) =
          applyOps (e1.asContentsMut f) l2 from rfl] at hrun
      refine hash_none_after_nonestablishing l2 (e1.asContentsMut f) e' ?_ hall hrun
      cases e1
      rfl
  · intro f e
    cases e with
    | mk h c => simp [Entry.asContentsMut, Entry.headerHash, Entry.contents]
  · intro f e
    cases e with
    | mk h c =>
      cases hcomp : EntryContents.computeHash (f c) with
      | error err =>
        simp [Entry.asContentsMut, Entry.toMissing, Entry.hash, Entry.contents, hcomp,
          Except.map, error_bind]
      | ok hs =>
        simp [Entry.asContentsMut, Entry.toMissing, Entry.hash, Entry.contents, hcomp,
          Except.map, ok_bind]

/-- Witness for C10 at a concrete input: an entry with a stale cached hash,
mutated twice with no re-establishing operation, ends with no cached hash. -/
theorem entry_hash_cache_witness :
    (Entry.mk none EntryContents.missing).hash = none := by
  exact entry_hash_cache_coherence.2.1
    (Entry.mk (some (5, 7)) (EntryContents.file [1]))
    (Entry.mk none EntryContents.missing)
    [EntryOp.contentsMut id] [] (fun _ => EntryContents.missing)
    (by rfl) (by intro op hop; exact absurd hop (List.not_mem_nil op))

end StartOS
